import Mathlib

/-!
# Verification of the WF Suite Release Proxy (src/app.py)

A shallow embedding of the core logic of `app.py`: the release
filter/projection inside `get_releases`, the cache-validity check, the
sliding-window rate limiter, the download path of `download_release_asset`,
and the health check.  Python dict fields that may be absent are modelled as
`Option`; a `KeyError` on a required field (caught by the generic exception
handler in the code, surfaced as HTTP 500) is modelled by `Except.error`.
Time (`time.time()` / `datetime.now()`) is modelled as a rational number of
seconds.  Network effects are modelled by passing the upstream response as an
explicit parameter, so "no upstream call is made" becomes "the result does
not depend on that parameter".
-/

namespace ReleaseProxy

/-- Python `s.endswith(t)` (used at app.py lines 126 and 207): `t` is a
suffix of the character sequence of `s`. -/
def pyEndsWith (s t : String) : Bool := t.data.isSuffixOf s.data

/-- A raw upstream asset object (`asset` in the loop of `get_releases`).
`none` means the key is absent from the JSON object. -/
structure RawAsset where
  name : Option String
  id : Option Nat
  browser_download_url : Option String
  size : Option Nat
  created_at : Option String
  deriving Repr, DecidableEq

/-- A raw upstream release object. `none` means the key is absent. -/
structure RawRelease where
  tag_name : Option String
  name : Option String
  draft : Option Bool
  prerelease : Option Bool
  body : Option String
  html_url : Option String
  published_at : Option String
  assets : Option (List RawAsset)
  deriving Repr, DecidableEq

/-- A projected public asset, as built at lines 127-132 of app.py. -/
structure PublicAsset where
  name : String
  browser_download_url : String
  size : Nat
  created_at : Option String
  deriving Repr, DecidableEq

/-- A projected public release, as built at lines 136-144 of app.py. -/
structure PublicRelease where
  tag_name : String
  name : String
  prerelease : Bool
  body : String
  html_url : String
  published_at : Option String
  assets : List PublicAsset
  deriving Repr, DecidableEq

/-- A `KeyError` on a required dict key, i.e. `d['k']` with `k` absent. -/
inductive ProjError where
  | missingField (field : String)
  deriving Repr, DecidableEq

/-- One step of the asset loop (app.py lines 125-132): reading
`asset['name']` raises if the key is absent; an asset whose name ends in
`.exe` is projected (reading `asset['browser_download_url']`, which raises
if absent, and defaulting `size` to 0 and `created_at` to null); any other
asset contributes nothing. -/
def projectAsset (a : RawAsset) : Except ProjError (Option PublicAsset) :=
  match a.name with
  | none => .error (.missingField "name")
  | some n =>
    if pyEndsWith n ".exe" then
      match a.browser_download_url with
      | none => .error (.missingField "browser_download_url")
      | some url =>
        .ok (some { name := n, browser_download_url := url,
                    size := a.size.getD 0, created_at := a.created_at })
    else
      .ok none

/-- The asset loop of app.py lines 124-132: build the `.exe`-filtered asset
list in input order, propagating the first `KeyError`. -/
def filterAssets : List RawAsset → Except ProjError (List PublicAsset)
  | [] => .ok []
  | a :: rest => do
    let oa ← projectAsset a
    let tail ← filterAssets rest
    match oa with
    | some pa => .ok (pa :: tail)
    | none => .ok tail

/-- One iteration of the release loop (app.py lines 118-145): a draft
release is skipped before its assets are touched; otherwise the filtered
asset list is built; a release whose filtered list is empty is skipped;
otherwise the public release is built, reading the required keys
`tag_name` and `html_url` (raising if absent) and defaulting `name` to
`tag_name`, `prerelease` to `false`, `body` to `""`, `published_at` to
null. `none` result means the release is skipped. -/
def projectRelease (r : RawRelease) : Except ProjError (Option PublicRelease) :=
  if r.draft.getD false then
    .ok none
  else do
    let fas ← filterAssets (r.assets.getD [])
    if fas.isEmpty then
      .ok none
    else
      match r.tag_name with
      | none => .error (.missingField "tag_name")
      | some tag =>
        match r.html_url with
        | none => .error (.missingField "html_url")
        | some url =>
          .ok (some { tag_name := tag, name := r.name.getD tag,
                      prerelease := r.prerelease.getD false,
                      body := r.body.getD "", html_url := url,
                      published_at := r.published_at, assets := fas })

/-- The whole filter/projection loop of `get_releases` (app.py lines
117-145): process releases in input order, collecting the projected ones
and propagating the first `KeyError`. -/
def project : List RawRelease → Except ProjError (List PublicRelease)
  | [] => .ok []
  | r :: rs => do
    let o ← projectRelease r
    let rest ← project rs
    match o with
    | some pr => .ok (pr :: rest)
    | none => .ok rest

/-- `CACHE_DURATION_MINUTES` (app.py line 35), in seconds. -/
def cacheDurationSeconds : ℚ := 5 * 60

/-- The pruning step of the rate limiter (app.py line 52): keep exactly the
timestamps `t` with `now - t < 60`. -/
def pruneLog (now : ℚ) (log : List ℚ) : List ℚ :=
  log.filter (fun t => now - t < 60)

/-- One admission check of the `rate_limit` decorator (app.py lines 49-58):
prune the shared log, reject (HTTP 429, `false`) without recording when the
pruned log has at least `maxRequests` entries, otherwise record `now` and
admit (`true`).  Returns the admission decision and the updated log. -/
def rate_limit (maxRequests : ℕ) (now : ℚ) (log : List ℚ) : Bool × List ℚ :=
  let pruned := pruneLog now log
  if maxRequests ≤ pruned.length then
    (false, pruned)
  else
    (true, pruned ++ [now])

/-- The in-memory cache dict (app.py lines 38-41). -/
structure Cache where
  data : Option (List PublicRelease)
  timestamp : Option ℚ
  deriving Repr, DecidableEq

/-- `is_cache_valid` (app.py lines 62-68): false when either field is null,
otherwise true iff the age `now - timestamp` is under five minutes. -/
def is_cache_valid (now : ℚ) (c : Cache) : Bool :=
  match c.data, c.timestamp with
  | some _, some ts => decide (now - ts < cacheDurationSeconds)
  | _, _ => false

/-- Outcome of one upstream HTTP request made with `requests`: a decoded
2xx response body, a non-2xx status (which `raise_for_status()` turns into
an HTTPError, a subclass of RequestException), or a network-level failure
(also a RequestException). -/
inductive Fetch (α : Type) where
  | ok (body : α)
  | httpError (code : ℕ)
  | netError
  deriving Repr, DecidableEq

/-- An HTTP response of the JSON endpoints: a 200 body or an error status. -/
inductive Resp (α : Type) where
  | ok (body : α)
  | err (code : ℕ)
  deriving Repr, DecidableEq

/-- The body of `get_releases` after rate-limit admission (app.py lines
88-160): serve the cache when valid; 500 when the token is missing; fetch
the release list upstream (502 on RequestException, i.e. non-2xx or network
failure); run the projection (a KeyError is caught by the generic handler,
500) and on success store the result in the cache.  The upstream response
is passed in as `up`; the pair returned is (HTTP response, cache after the
call). -/
def get_releases (now : ℚ) (tokenConfigured : Bool)
    (up : Fetch (List RawRelease)) (c : Cache) :
    Resp (List PublicRelease) × Cache :=
  if is_cache_valid now c then
    (.ok (c.data.getD []), c)
  else if !tokenConfigured then
    (.err 500, c)
  else
    match up with
    | .httpError _ => (.err 502, c)
    | .netError => (.err 502, c)
    | .ok raw =>
      match project raw with
      | .error _ => (.err 500, c)
      | .ok pub => (.ok pub, { data := some pub, timestamp := some now })

/-- The response of `download_release_asset`: an error status, or a
streamed 200 whose body is the forwarded upstream byte stream of the asset
with the given id (kept symbolic), with the Content-Disposition filename
and the optional Content-Length header value (`none` means the header is
absent and the transfer is chunked/unbounded). -/
inductive DownloadResp where
  | err (code : ℕ)
  | stream (assetId : ℕ) (contentDisposition : String) (contentLength : Option ℕ)
  deriving Repr, DecidableEq

/-- The Content-Disposition header value built at app.py line 266. -/
def contentDispositionFor (asset_name : String) : String :=
  "attachment; filename=\"" ++ asset_name ++ "\""

/-- The asset-id scan of app.py lines 235-239: first asset whose `name`
equals `asset_name` (reading `asset['name']` raises when absent, and
`asset['id']` is read on the match).  Returns the whole matching asset so
the later size lookup (line 258) can be expressed on it. -/
def findAsset (asset_name : String) :
    List RawAsset → Except ProjError (Option RawAsset)
  | [] => .ok none
  | a :: rest =>
    match a.name with
    | none => .error (.missingField "name")
    | some n =>
      if n = asset_name then .ok (some a)
      else findAsset asset_name rest

/-- The body of `download_release_asset` after rate-limit admission (app.py
lines 200-277): 500 when the token is missing; 400 when `asset_name` does
not end in `.exe`; otherwise the release is fetched by tag (`fetchByTag
tag_name` is the upstream response to the request built at line 222;
`raise_for_status()` turns any non-2xx — including an upstream 404 for a
missing tag — and any network failure into a RequestException, caught as
502); the raw asset list is scanned for an exact name match; a falsy asset
id (absent match, or the Python `if not asset_id:` treating id 0 as no
match) yields 404; a KeyError while scanning (`asset['name']`), on the
match (`asset['id']`), or in the size lookup (`asset['size']`, line 258)
is caught by the generic handler as 500; otherwise the asset is streamed
with a Content-Disposition attachment header for `asset_name` and a
Content-Length of the asset size exactly when that size is positive. -/
def download_release_asset (tokenConfigured : Bool) (tag_name asset_name : String)
    (fetchByTag : String → Fetch RawRelease) : DownloadResp :=
  if !tokenConfigured then .err 500
  else if !(pyEndsWith asset_name ".exe") then .err 400
  else
    match fetchByTag tag_name with
    | .httpError _ => .err 502
    | .netError => .err 502
    | .ok release =>
      match findAsset asset_name (release.assets.getD []) with
      | .error _ => .err 500
      | .ok none => .err 404
      | .ok (some a) =>
        match a.id with
        | none => .err 500
        | some i =>
          if i = 0 then .err 404
          else
            match a.size with
            | none => .err 500
            | some s =>
              .stream i (contentDispositionFor asset_name)
                (if 0 < s then some s else none)

/-- The response of `health_check`: the 200 healthy body with its
`github_api` and `cache_valid` fields, or the 500 unhealthy body carrying
`str(e)` of the raised exception. -/
inductive HealthResp where
  | healthy (github_api : String) (cache_valid : Bool)
  | unhealthy (error : String)
  deriving Repr, DecidableEq

/-- The HTTP status the route returns with each `HealthResp` (200 for the
healthy body, 500 for the unhealthy one; app.py lines 180-194). -/
def healthStatusCode : HealthResp → ℕ
  | .healthy _ _ => 200
  | .unhealthy _ => 500

/-- Outcome of the connectivity probe `requests.get(...)` in
`health_check`: a completed response with some status code, or a raised
exception with message `str(e)`. -/
inductive ConnProbe where
  | status (code : ℕ)
  | exn (msg : String)
  deriving Repr, DecidableEq

/-- The body of `health_check` (app.py lines 162-194): when the probe
completes, report healthy with `github_api` `connected` iff the status is
exactly 200 (`error` otherwise) and the current cache validity; when it
raises, the handler returns the 500 unhealthy body containing the error
message. -/
def health_check (now : ℚ) (probe : ConnProbe) (c : Cache) : HealthResp :=
  match probe with
  | .status code =>
    .healthy (if code = 200 then "connected" else "error") (is_cache_valid now c)
  | .exn msg => .unhealthy msg

end ReleaseProxy

namespace ReleaseProxy

/-! ## Sample data

Concrete objects used by witnesses and counterexamples; `sampleRelease` is
the release of the spec's scenario
`{tag_name:"v1.0", draft:false, assets:[{name:"setup.exe", size:100}, {name:"readme.txt"}]}`
(with the `browser_download_url` and `id` fields GitHub always sends on
assets filled in). -/

def sampleExeAsset : RawAsset :=
  { name := some "setup.exe", id := some 1, browser_download_url := some "d",
    size := some 100, created_at := none }

def sampleTxtAsset : RawAsset :=
  { name := some "readme.txt", id := some 2, browser_download_url := none,
    size := none, created_at := none }

def sampleRelease : RawRelease :=
  { tag_name := some "v1.0", name := none, draft := some false,
    prerelease := none, body := none, html_url := some "u",
    published_at := none, assets := some [sampleExeAsset, sampleTxtAsset] }

def sampleUpperAsset : RawAsset :=
  { name := some "setup.EXE", id := some 3, browser_download_url := some "d2",
    size := some 5, created_at := none }

def samplePublicAsset : PublicAsset :=
  { name := "setup.exe", browser_download_url := "d", size := 100,
    created_at := none }

def samplePublicRelease : PublicRelease :=
  { tag_name := "v1.0", name := "v1.0", prerelease := false, body := "",
    html_url := "u", published_at := none, assets := [samplePublicAsset] }

def sampleCache : Cache :=
  { data := some [samplePublicRelease], timestamp := some 0 }

/-- A release holding one `.exe` asset named `other.exe` (no asset named
`setup.exe`). -/
def otherExeAsset : RawAsset :=
  { name := some "other.exe", id := some 7, browser_download_url := some "d3",
    size := some 1, created_at := none }

def otherRelease : RawRelease :=
  { tag_name := some "v2", name := none, draft := some false,
    prerelease := none, body := none, html_url := some "u2",
    published_at := none, assets := some [otherExeAsset] }

/-- An asset object with no `name` key. -/
def noNameAsset : RawAsset :=
  { name := none, id := some 9, browser_download_url := some "d4",
    size := some 1, created_at := none }

/-- A non-draft release with both required fields present but an asset
missing its `name` key. -/
def relWithNoNameAsset : RawRelease :=
  { tag_name := some "v3", name := none, draft := none, prerelease := none,
    body := none, html_url := some "u3", published_at := none,
    assets := some [noNameAsset] }

/-- A draft release missing `tag_name` (and `html_url`). -/
def draftNoTag : RawRelease :=
  { tag_name := none, name := none, draft := some true, prerelease := none,
    body := none, html_url := none, published_at := none,
    assets := some [sampleExeAsset] }

def emptyCache : Cache := { data := none, timestamp := none }

/-- The fields of a raw asset the projection reads without raising: a
present `name`, and a present `browser_download_url` when the name ends in
`.exe`. -/
def assetFieldsOk (a : RawAsset) : Prop :=
  ∃ n, a.name = some n ∧
    (pyEndsWith n ".exe" = true → ∃ u, a.browser_download_url = some u)

/-- Some asset of the list carries a name ending in `.exe`. -/
def hasExeNamedAsset (as : List RawAsset) : Prop :=
  ∃ a ∈ as, ∃ n, a.name = some n ∧ pyEndsWith n ".exe" = true

/-! ## Helper lemmas -/

@[simp] lemma ok_bind {ε α β : Type} (a : α) (f : α → Except ε β) :
    (Except.ok a : Except ε α) >>= f = f a := rfl

@[simp] lemma error_bind {ε α β : Type} (e : ε) (f : α → Except ε β) :
    (Except.error e : Except ε α) >>= f = .error e := rfl

lemma projectRelease_of_draft {r : RawRelease}
    (h : r.draft.getD false = true) : projectRelease r = .ok none := by
  simp [projectRelease, h]

lemma projectRelease_of_no_exe {r : RawRelease}
    (hd : r.draft.getD false = false)
    (hf : filterAssets (r.assets.getD []) = .ok []) :
    projectRelease r = .ok none := by
  simp [projectRelease, hd, hf]

lemma projectRelease_emit {r : RawRelease} {fas : List PublicAsset}
    {tag url : String} (hd : r.draft.getD false = false)
    (hf : filterAssets (r.assets.getD []) = .ok fas) (hne : fas ≠ [])
    (ht : r.tag_name = some tag) (hu : r.html_url = some url) :
    projectRelease r =
      .ok (some { tag_name := tag, name := r.name.getD tag,
                  prerelease := r.prerelease.getD false,
                  body := r.body.getD "", html_url := url,
                  published_at := r.published_at, assets := fas }) := by
  simp [projectRelease, hd, hf, ht, hu, List.isEmpty_iff, hne]

lemma project_cons (r : RawRelease) (rs : List RawRelease) :
    project (r :: rs) =
      (projectRelease r).bind (fun o =>
        (project rs).bind (fun rest =>
          match o with
          | some pr => .ok (pr :: rest)
          | none => .ok rest)) := rfl

lemma project_cons_skip {r : RawRelease} (rs : List RawRelease)
    (h : projectRelease r = .ok none) : project (r :: rs) = project rs := by
  rw [project_cons, h]
  cases project rs <;> rfl

lemma project_cons_emit {r : RawRelease} (rs : List RawRelease)
    {pr : PublicRelease} (h : projectRelease r = .ok (some pr)) :
    project (r :: rs) = (project rs).map (fun rest => pr :: rest) := by
  rw [project_cons, h]
  cases project rs <;> rfl

lemma projectAsset_no_name {a : RawAsset} (h : a.name = none) :
    projectAsset a = .error (.missingField "name") := by
  simp [projectAsset, h]

lemma projectAsset_exe {a : RawAsset} {n u : String} (hn : a.name = some n)
    (hexe : pyEndsWith n ".exe" = true) (hu : a.browser_download_url = some u) :
    projectAsset a =
      .ok (some { name := n, browser_download_url := u,
                  size := a.size.getD 0, created_at := a.created_at }) := by
  simp [projectAsset, hn, hexe, hu]

lemma projectAsset_exe_no_url {a : RawAsset} {n : String}
    (hn : a.name = some n) (hexe : pyEndsWith n ".exe" = true)
    (hu : a.browser_download_url = none) :
    projectAsset a = .error (.missingField "browser_download_url") := by
  simp [projectAsset, hn, hexe, hu]

lemma projectAsset_not_exe {a : RawAsset} {n : String} (hn : a.name = some n)
    (hexe : pyEndsWith n ".exe" = false) : projectAsset a = .ok none := by
  simp [projectAsset, hn, hexe]

lemma filterAssets_cons (a : RawAsset) (rest : List RawAsset) :
    filterAssets (a :: rest) =
      (projectAsset a).bind (fun oa =>
        (filterAssets rest).bind (fun tail =>
          match oa with
          | some pa => .ok (pa :: tail)
          | none => .ok tail)) := rfl

lemma filterAssets_names (as : List RawAsset) :
    ∀ (pas : List PublicAsset),
      filterAssets as = .ok pas →
      pas.map (fun p => p.name)
        = (as.filterMap (fun a => a.name)).filter
            (fun n => pyEndsWith n ".exe") := by
  induction as with
  | nil =>
    intro pas h
    simp only [filterAssets] at h
    cases h
    simp
  | cons a rest ih =>
    intro pas h
    rw [filterAssets_cons] at h
    cases hn : a.name with
    | none => rw [projectAsset_no_name hn] at h; simp [Except.bind] at h
    | some n =>
      by_cases hexe : pyEndsWith n ".exe" = true
      · cases hu : a.browser_download_url with
        | none => rw [projectAsset_exe_no_url hn hexe hu] at h; simp [Except.bind] at h
        | some u =>
          rw [projectAsset_exe hn hexe hu] at h
          cases hrest : filterAssets rest with
          | error e => rw [hrest] at h; simp [Except.bind] at h
          | ok tail =>
            rw [hrest] at h
            simp only [Except.bind] at h
            cases h
            simp only [List.map_cons, List.filterMap_cons, hn,
              List.filter_cons, hexe]
            exact congrArg (n :: ·) (ih tail hrest)
      · rw [projectAsset_not_exe hn (Bool.not_eq_true _ ▸ hexe)] at h
        cases hrest : filterAssets rest with
        | error e => rw [hrest] at h; simp [Except.bind] at h
        | ok tail =>
          rw [hrest] at h
          simp only [Except.bind] at h
          cases h
          simp only [List.filterMap_cons, hn, List.filter_cons]
          rw [Bool.not_eq_true] at hexe
          rw [hexe]
          exact ih pas hrest

lemma findAsset_eq_none {nm : String} :
    ∀ as : List RawAsset,
      (∀ a ∈ as, ∃ n, a.name = some n ∧ n ≠ nm) →
      findAsset nm as = .ok none := by
  intro as
  induction as with
  | nil => intro _; rfl
  | cons a rest ih =>
    intro h
    obtain ⟨n, hn, hne⟩ := h a (List.mem_cons_self a rest)
    simp only [findAsset, hn]
    rw [if_neg hne]
    exact ih (fun b hb => h b (List.mem_cons_of_mem a hb))

lemma filterAssets_isOk_iff :
    ∀ as : List RawAsset,
      (∃ pas, filterAssets as = .ok pas) ↔ ∀ a ∈ as, assetFieldsOk a := by
  intro as
  induction as with
  | nil => simp [filterAssets]
  | cons a rest ih =>
    constructor
    · rintro ⟨pas, h⟩
      rw [filterAssets_cons] at h
      intro b hb
      rcases List.mem_cons.mp hb with hba | hbr
      · subst hba
        cases hn : b.name with
        | none =>
          rw [projectAsset_no_name hn] at h
          simp [Except.bind] at h
        | some n =>
          by_cases hexe : pyEndsWith n ".exe" = true
          · cases hu : b.browser_download_url with
            | none =>
              rw [projectAsset_exe_no_url hn hexe hu] at h
              simp [Except.bind] at h
            | some u => exact ⟨n, hn, fun _ => ⟨u, hu⟩⟩
          · exact ⟨n, hn, fun hx => absurd hx hexe⟩
      · have hrest : ∃ tail, filterAssets rest = .ok tail := by
          cases hpa : projectAsset a with
          | error e =>
            rw [hpa] at h
            simp [Except.bind] at h
          | ok oa =>
            rw [hpa] at h
            cases hr : filterAssets rest with
            | error e =>
              rw [hr] at h
              simp [Except.bind] at h
            | ok tail => exact ⟨tail, rfl⟩
        exact (ih.mp hrest) b hbr
    · intro h
      obtain ⟨n, hn, hurl⟩ := h a (List.mem_cons_self a rest)
      obtain ⟨tail, htail⟩ :=
        ih.mpr (fun b hb => h b (List.mem_cons_of_mem a hb))
      by_cases hexe : pyEndsWith n ".exe" = true
      · obtain ⟨u, hu⟩ := hurl hexe
        refine ⟨{ name := n, browser_download_url := u,
                  size := a.size.getD 0, created_at := a.created_at }
                :: tail, ?_⟩
        rw [filterAssets_cons, projectAsset_exe hn hexe hu, htail]
        rfl
      · have hexe' : pyEndsWith n ".exe" = false := by simpa using hexe
        refine ⟨tail, ?_⟩
        rw [filterAssets_cons, projectAsset_not_exe hn hexe', htail]
        rfl

lemma project_isOk_iff :
    ∀ rs : List RawRelease,
      (∃ out, project rs = .ok out) ↔
        ∀ r ∈ rs, ∃ o, projectRelease r = .ok o := by
  intro rs
  induction rs with
  | nil => simp [project]
  | cons r rest ih =>
    constructor
    · rintro ⟨out, h⟩
      rw [project_cons] at h
      intro b hb
      rcases List.mem_cons.mp hb with hba | hbr
      · subst hba
        cases hpr : projectRelease b with
        | error e =>
          rw [hpr] at h
          simp [Except.bind] at h
        | ok o => exact ⟨o, rfl⟩
      · have hrest : ∃ out', project rest = .ok out' := by
          cases hpr : projectRelease r with
          | error e =>
            rw [hpr] at h
            simp [Except.bind] at h
          | ok o =>
            rw [hpr] at h
            cases hre : project rest with
            | error e =>
              rw [hre] at h
              simp [Except.bind] at h
            | ok out' => exact ⟨out', rfl⟩
        exact ih.mp hrest b hbr
    · intro h
      obtain ⟨o, ho⟩ := h r (List.mem_cons_self r rest)
      obtain ⟨rest', hrest⟩ :=
        ih.mpr (fun b hb => h b (List.mem_cons_of_mem r hb))
      cases o with
      | none =>
        refine ⟨rest', ?_⟩
        rw [project_cons, ho, hrest]
        rfl
      | some pr =>
        refine ⟨pr :: rest', ?_⟩
        rw [project_cons, ho, hrest]
        rfl

lemma projectRelease_isOk_iff (r : RawRelease) :
    (∃ o, projectRelease r = .ok o) ↔
      (r.draft.getD false = true ∨
        ((∀ a ∈ r.assets.getD [], assetFieldsOk a)
          ∧ (hasExeNamedAsset (r.assets.getD []) →
              r.tag_name ≠ none ∧ r.html_url ≠ none))) := by
  by_cases hd : r.draft.getD false = true
  · simp [projectRelease_of_draft hd, hd]
  · have hd' : r.draft.getD false = false := by simpa using hd
    constructor
    · rintro ⟨o, ho⟩
      cases hf : filterAssets (r.assets.getD []) with
      | error e =>
        exfalso
        have : projectRelease r = .error e := by
          simp [projectRelease, hd', hf]
        rw [this] at ho
        simp at ho
      | ok fas =>
        refine Or.inr ⟨(filterAssets_isOk_iff _).mp ⟨fas, hf⟩,
          fun hexe => ?_⟩
        have hnames := filterAssets_names _ fas hf
        have hfne : fas ≠ [] := by
          intro hnil
          subst hnil
          obtain ⟨a, ha, n, hn, hx⟩ := hexe
          have hmem : n ∈ (r.assets.getD []).filterMap (fun a => a.name) :=
            List.mem_filterMap.mpr ⟨a, ha, hn⟩
          have hfil : n ∈ ((r.assets.getD []).filterMap
              (fun a => a.name)).filter (fun n => pyEndsWith n ".exe") :=
            List.mem_filter.mpr ⟨hmem, hx⟩
          rw [← hnames] at hfil
          simp at hfil
        constructor
        · intro htag
          rw [Option.eq_none_iff_forall_not_mem] at htag
          have htag' : r.tag_name = none :=
            Option.eq_none_iff_forall_not_mem.mpr htag
          have : projectRelease r = .error (.missingField "tag_name") := by
            simp [projectRelease, hd', hf, List.isEmpty_iff, hfne, htag']
          rw [this] at ho
          simp at ho
        · intro hhtml
          cases htag : r.tag_name with
          | none =>
            have : projectRelease r = .error (.missingField "tag_name") := by
              simp [projectRelease, hd', hf, List.isEmpty_iff, hfne, htag]
            rw [this] at ho
            simp at ho
          | some tag =>
            have : projectRelease r = .error (.missingField "html_url") := by
              simp [projectRelease, hd', hf, List.isEmpty_iff, hfne, htag,
                hhtml]
            rw [this] at ho
            simp at ho
    · rintro (hdt | ⟨hok, himp⟩)
      · exact absurd hdt hd
      · obtain ⟨fas, hf⟩ := (filterAssets_isOk_iff _).mpr hok
        by_cases hfe : fas = []
        · subst hfe
          exact ⟨none, projectRelease_of_no_exe hd' hf⟩
        · have hnames := filterAssets_names _ fas hf
          have hexe : hasExeNamedAsset (r.assets.getD []) := by
            obtain ⟨p, hp⟩ := List.exists_mem_of_ne_nil fas hfe
            have hpn : p.name ∈ ((r.assets.getD []).filterMap
                (fun a => a.name)).filter (fun n => pyEndsWith n ".exe") := by
              rw [← hnames]
              exact List.mem_map_of_mem (fun q => q.name) hp
            have h1 := List.mem_filter.mp hpn
            obtain ⟨a, ha, hn⟩ := List.mem_filterMap.mp h1.1
            exact ⟨a, ha, p.name, hn, h1.2⟩
          obtain ⟨htag, hhtml⟩ := himp hexe
          obtain ⟨tag, htg⟩ := Option.ne_none_iff_exists'.mp htag
          obtain ⟨url, hur⟩ := Option.ne_none_iff_exists'.mp hhtml
          exact ⟨some _, projectRelease_emit hd' hf hfe htg hur⟩

/-! ## The claims -/

/-- C1. The projection of `get_releases` drops every draft release and
every release whose `.exe`-filtered asset list is empty; every other
release is emitted in input order as a `PublicRelease` whose `name`
defaults to `tag_name`, `prerelease` to `false` and `body` to `""` when
those fields are absent. -/
theorem C1_projection_shape (r : RawRelease) (rs : List RawRelease) :
    (r.draft.getD false = true → project (r :: rs) = project rs)
    ∧ (r.draft.getD false = false →
        filterAssets (r.assets.getD []) = .ok [] →
        project (r :: rs) = project rs)
    ∧ (∀ (fas : List PublicAsset) (tag url : String),
        r.draft.getD false = false →
        filterAssets (r.assets.getD []) = .ok fas → fas ≠ [] →
        r.tag_name = some tag → r.html_url = some url →
        project (r :: rs) = (project rs).map (fun rest =>
          ({ tag_name := tag, name := r.name.getD tag,
             prerelease := r.prerelease.getD false,
             body := r.body.getD "", html_url := url,
             published_at := r.published_at,
             assets := fas } : PublicRelease) :: rest)) := by
  refine ⟨fun hd => ?_, fun hd hf => ?_, fun fas tag url hd hf hne ht hu => ?_⟩
  · exact project_cons_skip rs (projectRelease_of_draft hd)
  · exact project_cons_skip rs (projectRelease_of_no_exe hd hf)
  · exact project_cons_emit rs (projectRelease_emit hd hf hne ht hu)

/-- Witness for C1: the sample release (non-draft, one `.exe` asset, no
`name`/`prerelease`/`body` fields) is emitted at the head of the output
with the documented defaults. -/
theorem C1_projection_shape_witness :
    project [sampleRelease] =
      (project []).map (fun rest => samplePublicRelease :: rest) :=
  (C1_projection_shape sampleRelease []).2.2 [samplePublicAsset] "v1.0" "u"
    rfl rfl (by decide) rfl rfl

/-- C2. Exactly the assets whose name ends with the case-sensitive suffix
`.exe` survive the asset filter, in input order; the spec's scenario
release yields exactly one `PublicRelease` with exactly one asset
(`setup.exe`, size 100); an asset named `setup.EXE` does not survive. -/
theorem C2_exe_filter :
    (∀ (as : List RawAsset) (pas : List PublicAsset),
        filterAssets as = .ok pas →
        pas.map (fun p => p.name)
          = (as.filterMap (fun a => a.name)).filter
              (fun n => pyEndsWith n ".exe"))
    ∧ project [sampleRelease] = .ok [samplePublicRelease]
    ∧ filterAssets [sampleUpperAsset] = .ok [] :=
  ⟨filterAssets_names, rfl, rfl⟩

/-- Witness for C2 at the scenario asset list: the surviving names are the
`.exe`-suffixed ones. -/
theorem C2_exe_filter_witness :
    [samplePublicAsset].map (fun p => p.name)
      = (([sampleExeAsset, sampleTxtAsset].filterMap
            (fun a => a.name)).filter (fun n => pyEndsWith n ".exe")) :=
  C2_exe_filter.1 [sampleExeAsset, sampleTxtAsset] [samplePublicAsset] rfl

/-- C3. The rate limiter first prunes timestamps 60 seconds old or older,
rejects without recording iff the pruned log has reached the threshold,
records the current instant otherwise; a call while `maxRequests`
admissions are still within the window is rejected, and once more than 60
seconds have passed since the oldest recorded admission (in any reachable
log, i.e. one holding at most `maxRequests` entries) a call is admitted. -/
theorem C3_rate_limiter (maxRequests : ℕ) (now : ℚ) (log : List ℚ) :
    ((rate_limit maxRequests now log).1 = false ↔
      maxRequests ≤ (pruneLog now log).length)
    ∧ ((rate_limit maxRequests now log).1 = false →
        (rate_limit maxRequests now log).2 = pruneLog now log)
    ∧ ((rate_limit maxRequests now log).1 = true →
        (rate_limit maxRequests now log).2 = pruneLog now log ++ [now])
    ∧ ((∀ t ∈ log, now - t < 60) → maxRequests ≤ log.length →
        (rate_limit maxRequests now log).1 = false)
    ∧ (log.length ≤ maxRequests → ∀ t0 ∈ log, (∀ t ∈ log, t0 ≤ t) →
        60 < now - t0 → (rate_limit maxRequests now log).1 = true)
    ∧ (log.length ≤ maxRequests →
        (rate_limit maxRequests now log).2.length ≤ maxRequests) := by
  refine ⟨?_, ?_, ?_, ?_, ?_, ?_⟩
  · by_cases hm : maxRequests ≤ (pruneLog now log).length <;>
      simp [rate_limit, hm]
  · by_cases hm : maxRequests ≤ (pruneLog now log).length <;>
      simp [rate_limit, hm]
  · by_cases hm : maxRequests ≤ (pruneLog now log).length <;>
      simp [rate_limit, hm]
  · intro hwin hlen
    have hall : pruneLog now log = log :=
      List.filter_eq_self.mpr (fun t ht => by
        simpa using hwin t ht)
    simp [rate_limit, hall, hlen]
  · intro hlen t0 ht0 _ hgt
    have hfail : ¬ (decide (now - t0 < 60) = true) := by
      simp only [decide_eq_true_eq, not_lt]
      linarith
    have hlt : (pruneLog now log).length < log.length :=
      List.length_filter_lt_length_iff_exists.mpr ⟨t0, ht0, hfail⟩
    have : ¬ maxRequests ≤ (pruneLog now log).length := by
      omega
    simp [rate_limit, this]
  · intro hlen
    have hp : (pruneLog now log).length ≤ log.length :=
      List.length_filter_le _ _
    by_cases hm : maxRequests ≤ (pruneLog now log).length <;>
      simp [rate_limit, hm] <;> omega

/-- Witness for C3: with threshold 1 and one admission recorded at time 0,
a call at time 61 (more than 60 seconds later) is admitted. -/
theorem C3_rate_limiter_witness : (rate_limit 1 61 [0]).1 = true :=
  (C3_rate_limiter 1 61 [0]).2.2.2.2.1 (by decide) 0 (by decide) (by decide)
    (by norm_num)

/-- C4. `is_cache_valid` holds iff both cache fields are present and the
age is strictly under five minutes; on a valid cache `get_releases`
returns the cached payload unchanged with an unchanged cache, for every
token configuration and upstream behaviour (no upstream call); after one
successful fetch populates the cache, any later call within the TTL
returns the same payload with the cache unchanged, again independently of
token and upstream. -/
theorem C4_cache_behavior (now : ℚ) (c : Cache) :
    (is_cache_valid now c = true ↔
      ∃ d ts, c.data = some d ∧ c.timestamp = some ts ∧
        now - ts < cacheDurationSeconds)
    ∧ (∀ d, c.data = some d → is_cache_valid now c = true →
        ∀ tok up, get_releases now tok up c = (.ok d, c))
    ∧ (∀ raw pub, is_cache_valid now c = false → project raw = .ok pub →
        get_releases now true (.ok raw) c =
          (.ok pub, { data := some pub, timestamp := some now }))
    ∧ (∀ raw pub now' tok' up', is_cache_valid now c = false →
        project raw = .ok pub → now' - now < cacheDurationSeconds →
        get_releases now' tok' up' (get_releases now true (.ok raw) c).2 =
          (.ok pub, (get_releases now true (.ok raw) c).2)) := by
  refine ⟨?_, ?_, ?_, ?_⟩
  · cases hd : c.data <;> cases ht : c.timestamp <;>
      simp [is_cache_valid, hd, ht]
  · intro d hd hv tok up
    simp [get_releases, hv, hd]
  · intro raw pub hv hp
    simp [get_releases, hv, hp]
  · intro raw pub now' tok' up' hv hp htime
    have hc2 : (get_releases now true (.ok raw) c).2 =
        { data := some pub, timestamp := some now } := by
      simp [get_releases, hv, hp]
    rw [hc2]
    have hvalid : is_cache_valid now'
        { data := some pub, timestamp := some now } = true := by
      simp [is_cache_valid, htime]
    simp [get_releases, hvalid]

/-- Witness for C4: a cache populated at time 0 and read at time 100 (with
no token configured and a failing upstream) still serves the cached
payload. -/
theorem C4_cache_behavior_witness :
    get_releases 100 false .netError sampleCache =
      (.ok [samplePublicRelease], sampleCache) :=
  (C4_cache_behavior 100 sampleCache).2.1 [samplePublicRelease] rfl
    (by norm_num [is_cache_valid, sampleCache, cacheDurationSeconds])
    false .netError

/-- C5. With the token configured, a download request for a name that does
not end in `.exe` is answered 400 for every tag and every upstream
behaviour (so no upstream call is consulted). -/
theorem C5_non_exe_rejected (tag asset_name : String)
    (fetchByTag : String → Fetch RawRelease)
    (h : pyEndsWith asset_name ".exe" = false) :
    download_release_asset true tag asset_name fetchByTag = .err 400 := by
  simp [download_release_asset, h]

/-- Witness for C5: the spec's `tool.zip` request is rejected with 400. -/
theorem C5_non_exe_rejected_witness :
    download_release_asset true "v1.0" "tool.zip" (fun _ => .netError)
      = .err 400 :=
  C5_non_exe_rejected "v1.0" "tool.zip" (fun _ => .netError) (by decide)

/-- C10. In `get_releases` the cache check precedes the token check: a
valid cache is served even without a token, and with no token configured
the 500 configuration error is returned exactly on a cache miss. -/
theorem C10_cache_precedes_token (now : ℚ) (c : Cache)
    (up : Fetch (List RawRelease)) :
    (∀ d, c.data = some d → is_cache_valid now c = true →
        get_releases now false up c = (.ok d, c))
    ∧ ((get_releases now false up c).1 = .err 500 ↔
        is_cache_valid now c = false) := by
  constructor
  · intro d hd hv
    simp [get_releases, hv, hd]
  · by_cases hv : is_cache_valid now c = true
    · simp [get_releases, hv]
    · have hv' : is_cache_valid now c = false := by
        simpa using hv
      simp [get_releases, hv']

/-- Counterexample to C6: with the token configured and a `.exe` asset
name, a missing release upstream (the fetch by tag answering 404, which
`raise_for_status()` turns into a `RequestException`) is answered 502, not
the claimed 404. -/
theorem C6_missing_release_counterexample :
    download_release_asset true "v1.0" "setup.exe"
      (fun _ => .httpError 404) = .err 502
    ∧ DownloadResp.err 502 ≠ DownloadResp.err 404 :=
  ⟨rfl, by decide⟩

/-- C6 (amended). For a `.exe` asset name: any non-2xx answer to the fetch
by tag — including the upstream 404 of a missing release — and any network
failure yield 502; when the release arrives but no raw asset's name
matches `asset_name` exactly, the response is 404 with no stream
constructed. -/
theorem C6_amended_behavior (tag asset_name : String)
    (hexe : pyEndsWith asset_name ".exe" = true) :
    (∀ code, download_release_asset true tag asset_name
        (fun _ => Fetch.httpError code) = .err 502)
    ∧ download_release_asset true tag asset_name (fun _ => Fetch.netError)
        = .err 502
    ∧ (∀ release : RawRelease,
        (∀ a ∈ release.assets.getD [],
          ∃ n, a.name = some n ∧ n ≠ asset_name) →
        download_release_asset true tag asset_name
          (fun _ => Fetch.ok release) = .err 404) := by
  refine ⟨fun code => ?_, ?_, fun release hno => ?_⟩
  · simp [download_release_asset, hexe]
  · simp [download_release_asset, hexe]
  · simp [download_release_asset, hexe, findAsset_eq_none _ hno]

/-- Witness for C6 (amended): requesting `setup.exe` from a release whose
only asset is `other.exe` is answered 404. -/
theorem C6_amended_behavior_witness :
    download_release_asset true "v2" "setup.exe"
      (fun _ => Fetch.ok otherRelease) = .err 404 :=
  (C6_amended_behavior "v2" "setup.exe" (by decide)).2.2 otherRelease
    (by
      intro a ha
      have h : a = otherExeAsset := by simpa [otherRelease] using ha
      subst h
      exact ⟨"other.exe", rfl, by decide⟩)

/-- Counterexample to C7: a non-draft release with `tag_name` and
`html_url` both present still makes the projection fail when one of its
assets lacks a `name` key, so the projection does not fail exactly on
missing `tag_name`/`html_url`; conversely a draft release missing
`tag_name` does not make it fail. -/
theorem C7_required_fields_counterexample :
    project [relWithNoNameAsset] = .error (.missingField "name")
    ∧ relWithNoNameAsset.tag_name = some "v3"
    ∧ relWithNoNameAsset.html_url = some "u3"
    ∧ project [draftNoTag] = .ok []
    ∧ draftNoTag.tag_name = none :=
  ⟨rfl, rfl, rfl, rfl, rfl⟩

/-- C7 (amended). The projection succeeds exactly when every release is a
draft or satisfies: every asset has a `name`, every `.exe`-named asset has
a `browser_download_url`, and — if some asset is `.exe`-named — the
release has `tag_name` and `html_url`.  The condition never mentions the
optional fields (release `name`, `prerelease`, `body`, `published_at`,
asset `size`, asset `created_at`), so their absence never makes the
projection fail. -/
theorem C7_amended_totality :
    (∀ rs : List RawRelease,
      (∃ out, project rs = .ok out) ↔
        ∀ r ∈ rs, ∃ o, projectRelease r = .ok o)
    ∧ (∀ r : RawRelease,
      (∃ o, projectRelease r = .ok o) ↔
        (r.draft.getD false = true ∨
          ((∀ a ∈ r.assets.getD [], assetFieldsOk a)
            ∧ (hasExeNamedAsset (r.assets.getD []) →
                r.tag_name ≠ none ∧ r.html_url ≠ none)))) :=
  ⟨project_isOk_iff, projectRelease_isOk_iff⟩

/-- Witness for C7 (amended): the sample release satisfies the success
condition, so its projection does not fail. -/
theorem C7_amended_totality_witness :
    ∃ o, projectRelease sampleRelease = Except.ok o :=
  (C7_amended_totality.2 sampleRelease).mpr
    (Or.inr ⟨by
      intro a ha
      have h : a = sampleExeAsset ∨ a = sampleTxtAsset := by
        simpa [sampleRelease] using ha
      rcases h with h | h <;> subst h
      · exact ⟨"setup.exe", rfl, fun _ => ⟨"d", rfl⟩⟩
      · exact ⟨"readme.txt", rfl, fun hx => absurd hx (by decide)⟩,
      fun _ => ⟨by simp [sampleRelease], by simp [sampleRelease]⟩⟩)

/-- C8. A download that resolves an asset (exact name match, nonzero id)
streams that asset's bytes with a Content-Disposition attachment header
naming `asset_name` and carries a Content-Length of the resolved size
exactly when that size is positive (the header is omitted for size 0);
when the matching asset has no size at all the generic handler answers 500
instead, so no successful download has an unknown size. -/
theorem C8_stream_headers (tag asset_name : String) (release : RawRelease)
    (a : RawAsset) (i : ℕ)
    (hexe : pyEndsWith asset_name ".exe" = true)
    (hfind : findAsset asset_name (release.assets.getD []) = .ok (some a))
    (hid : a.id = some i) (hnz : i ≠ 0) :
    (∀ s, a.size = some s →
      download_release_asset true tag asset_name (fun _ => .ok release) =
        .stream i (contentDispositionFor asset_name)
          (if 0 < s then some s else none))
    ∧ (a.size = none →
        download_release_asset true tag asset_name (fun _ => .ok release)
          = .err 500) := by
  constructor
  · intro s hs
    simp [download_release_asset, hexe, hfind, hid, hnz, hs]
  · intro hs
    simp [download_release_asset, hexe, hfind, hid, hnz, hs]

/-- Witness for C8: downloading `setup.exe` (id 1, size 100) from the
sample release streams asset 1 with the attachment header and
Content-Length 100. -/
theorem C8_stream_headers_witness :
    download_release_asset true "v1.0" "setup.exe"
      (fun _ => .ok sampleRelease) =
      .stream 1 (contentDispositionFor "setup.exe") (some 100) :=
  ((C8_stream_headers "v1.0" "setup.exe" sampleRelease sampleExeAsset 1
      rfl rfl rfl (by decide)).1 100 rfl).trans (by decide)

/-- Counterexample to C9: when the connectivity probe raises, the health
endpoint does not report `github_api` at all — it returns the 500
`unhealthy` body with the underlying error message surfaced in it. -/
theorem C9_exception_counterexample :
    health_check 0 (.exn "boom") emptyCache = .unhealthy "boom"
    ∧ healthStatusCode (health_check 0 (.exn "boom") emptyCache) = 500
    ∧ (∀ b, health_check 0 (.exn "boom") emptyCache ≠ .healthy "error" b)
    ∧ (∀ b, health_check 0 (.exn "boom") emptyCache
        ≠ .healthy "connected" b) :=
  ⟨rfl, rfl, by decide, by decide⟩

/-- C9 (amended). When the probe completes, `github_api` is reported
`connected` exactly for status 200 and `error` for every other status,
with a 200 response; when the probe raises, the endpoint answers 500 with
a body carrying the exception's message (no `github_api` field). -/
theorem C9_amended_health (now : ℚ) (c : Cache) (code : ℕ) (msg : String) :
    (health_check now (.status code) c =
        .healthy "connected" (is_cache_valid now c) ↔ code = 200)
    ∧ (code ≠ 200 → health_check now (.status code) c =
        .healthy "error" (is_cache_valid now c))
    ∧ health_check now (.exn msg) c = .unhealthy msg
    ∧ healthStatusCode (health_check now (.exn msg) c) = 500 := by
  refine ⟨?_, fun h => ?_, rfl, rfl⟩
  · constructor
    · intro h'
      by_cases hc : code = 200
      · exact hc
      · exfalso
        simp only [health_check, hc, if_false] at h'
        have : ("error" : String) = "connected" := by
          injection h'
        exact absurd this (by decide)
    · intro h
      simp [health_check, h]
  · simp [health_check, h]

/-- Witness for C9 (amended): a 404 from the probe is reported as
`github_api = error` in a healthy 200 body. -/
theorem C9_amended_health_witness :
    health_check 0 (.status 404) emptyCache =
      .healthy "error" (is_cache_valid 0 emptyCache) :=
  (C9_amended_health 0 emptyCache 404 "x").2.1 (by decide)

/-- Witness for C10: a valid cache slot is served with status 200 although
the token is absent. -/
theorem C10_cache_precedes_token_witness :
    get_releases 2 false (Fetch.ok []) (Cache.mk (some []) (some 0)) =
      (.ok [], Cache.mk (some []) (some 0)) :=
  (C10_cache_precedes_token 2 (Cache.mk (some []) (some 0))
    (Fetch.ok [])).1 [] rfl
    (by norm_num [is_cache_valid, cacheDurationSeconds])

end ReleaseProxy
